import Mathlib

/-!
Verification of the werewolf game state engine and orchestrator helpers.

The definitions below are a shallow embedding of the reducer in
`src/hooks/useGameLogic.ts` (game state machine) and of `safeInvoke` from
`src/hooks/useGameOrchestrator.ts`, together with the data model of
`src/lib/game.ts`.  Runtime nondeterminism is made explicit:

* `Math.random()` draws used by the Fisher–Yates shuffle are supplied as a
  function `rand : Nat → Nat` (reduced modulo the live range, matching
  `Math.floor(Math.random() * (i + 1)) ∈ [0, i]`);
* `Date.now()` is supplied as a `ts : Nat` parameter.

JavaScript `null`/`undefined` are both rendered as `Option.none`.  The
`extra` and `thinking` metadata payloads of replay events are opaque
`Record<string, unknown>` blobs never inspected by the engine and are not
modelled; all other replay fields are kept.
-/

inductive Role where
  | Werewolf | Villager | Seer | Witch | Hunter
deriving DecidableEq, Repr

structure Player where
  id : Nat
  name : String
  role : Role
  isAlive : Bool
  isSheriff : Bool
  lastNightRoleResult : Option String
deriving DecidableEq, Repr

inductive GamePhase where
  | RoleAssignment | Night | WerewolfAction | SeerAction | WitchAction
  | Day | Discussion | Voting | PostVoteDiscussion | HunterAction | GameOver
deriving DecidableEq, Repr

inductive Winner where
  | Werewolves | Villagers | none
deriving DecidableEq, Repr

inductive ReplayCategory where
  | phase | decision | speech | action | system | summary
deriving DecidableEq, Repr

structure ReplayEvent where
  id : String
  phase : String
  category : ReplayCategory
  day : Nat
  actorId : Option Nat
  content : String
  timestamp : Nat
deriving DecidableEq, Repr

structure Vote where
  voterId : Nat
  targetId : Option Nat
deriving DecidableEq, Repr

structure VoteSummary where
  votes : List Vote
  voteCounts : List (Nat × Nat)
  exiledPlayerId : Option Nat
  isTie : Bool
deriving DecidableEq, Repr

inductive HunterCtx where
  | night | day
deriving DecidableEq, Repr

structure HunterPendingInfo where
  playerId : Nat
  context : HunterCtx
  nextPhase : GamePhase
deriving DecidableEq, Repr

structure WitchState where
  saveUsed : Bool
  poisonUsed : Bool
  poisonChoice : Option Nat
  savedTargetId : Option Nat
deriving DecidableEq, Repr

structure GameState where
  players : List Player
  day : Nat
  phase : GamePhase
  winner : Winner
  werewolfChoice : Option Nat
  seerChoice : Option Nat
  witchState : WitchState
  votes : List Vote
  voteSummary : Option VoteSummary
  postVoteRound : Nat
  hunterPending : Option HunterPendingInfo
  gameLog : List String
  replay : List ReplayEvent
  highlights : List String
deriving DecidableEq, Repr

/-- Payload of one log entry: `LogEntryPayload` of `useGameLogic.ts`. -/
structure LogEntryPayload where
  message : String
  replay : Option ReplayEvent
  highlight : Option String
deriving DecidableEq, Repr

/-- Result of `applyLogEntries`: the three grown audit lists. -/
structure AppliedLogs where
  gameLog : List String
  replay : List ReplayEvent
  highlights : List String
deriving DecidableEq, Repr

/-- `applyLogEntries` from `useGameLogic.ts`: for each entry append the
message when truthy (non-empty), the replay event when present and the
highlight when present. -/
def applyLogEntries (state : GameState) (entries : List LogEntryPayload) : AppliedLogs :=
  { gameLog := state.gameLog ++ entries.filterMap
      (fun e => if e.message = "" then Option.none else some e.message)
    replay := state.replay ++ entries.filterMap (fun e => e.replay)
    highlights := state.highlights ++ entries.filterMap (fun e => e.highlight) }

/-- Number of alive werewolves in a player list (the `werewolfCount` local of
`checkWinCondition`). -/
def aliveWerewolves (players : List Player) : Nat :=
  ((players.filter (fun p => p.isAlive)).filter (fun p => p.role == Role.Werewolf)).length

/-- Number of alive non-werewolves in a player list, as computed by the code
(the `goodGuyCount` local, `alive.length - werewolfCount`). -/
def aliveGood (players : List Player) : Nat :=
  (players.filter (fun p => p.isAlive)).length - aliveWerewolves players

/-- `checkWinCondition` from `useGameLogic.ts`. -/
def checkWinCondition (players : List Player) : Winner :=
  let werewolfCount := aliveWerewolves players
  let goodGuyCount := aliveGood players
  if werewolfCount = 0 then Winner.Villagers
  else if werewolfCount > 0 ∧ werewolfCount ≥ goodGuyCount then Winner.Werewolves
  else Winner.none

/-- Outcome of awaiting a decision callback: either the promise rejected
(the callback threw), or it resolved; `Option.none` inside `resolved`
models a `null`/`undefined` resolution value. -/
inductive CallbackOutcome (T : Type) where
  | thrown (err : String)
  | resolved (value : Option T)
deriving DecidableEq, Repr

/-- `safeInvoke` from `useGameOrchestrator.ts`: await the callback; a thrown
error is caught and the fallback applied to the same arguments is returned;
a nullish resolution is replaced by the fallback via the nullish-coalescing
operator; any other resolution is returned unchanged.  The function is total
into `T`: no failure of the callback escapes to the caller. -/
def safeInvoke {A T : Type} (fn : A → CallbackOutcome T) (fallback : A → T) (args : A) : T :=
  match fn args with
  | CallbackOutcome.thrown _ => fallback args
  | CallbackOutcome.resolved Option.none => fallback args
  | CallbackOutcome.resolved (some v) => v

/-- C1: `checkWinCondition` returns `Villagers` exactly when no werewolf is
alive; returns `Werewolves` exactly when the alive-werewolf count is at
least the alive-non-werewolf count and at least one werewolf is alive; and
returns `none` exactly otherwise — the three outcomes are mutually
exclusive and exhaustive over any player list. -/
theorem checkWinCondition_trichotomy (players : List Player) :
    (checkWinCondition players = Winner.Villagers ↔ aliveWerewolves players = 0) ∧
    (checkWinCondition players = Winner.Werewolves ↔
      aliveWerewolves players ≥ aliveGood players ∧ 0 < aliveWerewolves players) ∧
    (checkWinCondition players = Winner.none ↔
      ¬ aliveWerewolves players = 0 ∧
      ¬ (aliveWerewolves players ≥ aliveGood players ∧ 0 < aliveWerewolves players)) := by
  have hV : checkWinCondition players =
      if aliveWerewolves players = 0 then Winner.Villagers
      else if aliveWerewolves players > 0 ∧ aliveWerewolves players ≥ aliveGood players then
        Winner.Werewolves
      else Winner.none := rfl
  rw [hV]
  set w := aliveWerewolves players with hw
  set g := aliveGood players with hg
  clear_value w g
  split_ifs with h0 h1 <;>
    refine ⟨?_, ?_, ?_⟩ <;>
    constructor <;>
    intro h <;>
    first
      | rfl
      | omega
      | (exact absurd h (by simp))

/-- C2: if the decision callback throws or resolves to a nullish value,
`safeInvoke` returns exactly the fallback applied to the same arguments
(never propagating the error); if the callback resolves to a non-null
value, `safeInvoke` returns that value unchanged. -/
theorem safeInvoke_spec {A T : Type} (fn : A → CallbackOutcome T) (fallback : A → T) (args : A) :
    (((∃ e, fn args = CallbackOutcome.thrown e) ∨ fn args = CallbackOutcome.resolved Option.none) →
      safeInvoke fn fallback args = fallback args) ∧
    (∀ v, fn args = CallbackOutcome.resolved (some v) → safeInvoke fn fallback args = v) := by
  constructor
  · rintro (⟨e, he⟩ | hn)
    · simp [safeInvoke, he]
    · simp [safeInvoke, hn]
  · intro v hv
    simp [safeInvoke, hv]

/-- Closed witness for `safeInvoke_spec`: at a concrete throwing callback the
fallback value is produced, and a concrete non-null resolution is passed
through. -/
theorem safeInvoke_spec_witness :
    safeInvoke (fun _ : Nat => CallbackOutcome.thrown (T := Nat) "boom") (fun n => n + 1) 4 = 5 ∧
    safeInvoke (fun _ : Nat => CallbackOutcome.resolved (some 7)) (fun n => n + 1) 4 = 7 := by
  constructor
  · exact (safeInvoke_spec (fun _ : Nat => CallbackOutcome.thrown (T := Nat) "boom")
      (fun n => n + 1) 4).1 (Or.inl ⟨"boom", rfl⟩)
  · exact (safeInvoke_spec (fun _ : Nat => CallbackOutcome.resolved (some 7))
      (fun n => n + 1) 4).2 7 rfl

/-- The fixed 10-slot role pool `ROLE_POOL` of `useGameLogic.ts` (the final
slot is a flexible seat defaulting to Villager). -/
def ROLE_POOL : List Role :=
  [Role.Werewolf, Role.Werewolf, Role.Werewolf,
   Role.Villager, Role.Villager, Role.Villager,
   Role.Seer, Role.Witch, Role.Hunter, Role.Villager]

/-- One Fisher–Yates step: exchange the elements at positions `i` and `j`
(`[arr[i], arr[j]] = [arr[j], arr[i]]`); out-of-range indices leave the
list unchanged (never reached for in-range draws). -/
def listSwap {α : Type} (l : List α) (i j : Nat) : List α :=
  match l[i]?, l[j]? with
  | some a, some b => (l.set i b).set j a
  | _, _ => l

/-- The descending loop of `shuffle`: `for i = n down to 1, swap arr[i] with
arr[rand i % (i+1)]`, where `rand i % (i+1)` covers exactly the range
`[0, i]` that `Math.floor(Math.random() * (i + 1))` produces. -/
def shuffleAux {α : Type} (rand : Nat → Nat) : Nat → List α → List α
  | 0, arr => arr
  | i + 1, arr => shuffleAux rand i (listSwap arr (i + 1) (rand (i + 1) % (i + 2)))

/-- `shuffle` from `useGameLogic.ts`: Fisher–Yates over a copy of the
source, with the random draws supplied by `rand`. -/
def shuffle {α : Type} (rand : Nat → Nat) (source : List α) : List α :=
  shuffleAux rand (source.length - 1) source

theorem count_set_add {α : Type} [DecidableEq α] :
    ∀ (l : List α) (i : Nat) (b x : α) (h : i < l.length),
      (l.set i b).count x + (if l[i] = x then 1 else 0)
        = l.count x + (if b = x then 1 else 0)
  | [], i, b, x, h => by simp at h
  | a :: t, 0, b, x, h => by
    simp only [List.set, List.count_cons, List.getElem_cons_zero, beq_iff_eq]
    split_ifs <;> omega
  | a :: t, i + 1, b, x, h => by
    have ih := count_set_add t i b x (by simpa using h)
    simp only [List.set, List.count_cons, List.getElem_cons_succ, beq_iff_eq]
    split_ifs at ih ⊢ <;> omega

theorem listSwap_perm {α : Type} [DecidableEq α] (l : List α) (i j : Nat) :
    (listSwap l i j).Perm l := by
  cases hgi : l[i]? with
  | none =>
    have hid : listSwap l i j = l := by
      unfold listSwap
      rw [hgi]
    rw [hid]
  | some a =>
    cases hgj : l[j]? with
    | none =>
      have hid : listSwap l i j = l := by
        unfold listSwap
        rw [hgi, hgj]
      rw [hid]
    | some b =>
      have hsw : listSwap l i j = (l.set i b).set j a := by
        unfold listSwap
        rw [hgi, hgj]
      rw [hsw]
      obtain ⟨hi, hvi⟩ := List.getElem?_eq_some.mp hgi
      obtain ⟨hj, hvj⟩ := List.getElem?_eq_some.mp hgj
      rw [List.perm_iff_count]
      intro x
      have h1 := count_set_add l i b x hi
      have hj' : j < (l.set i b).length := by simpa using hj
      have h2 := count_set_add (l.set i b) j a x hj'
      have hsj : (l.set i b)[j] = b := by
        rw [List.getElem_set]
        split
        · rfl
        · exact hvj
      rw [hsj] at h2
      rw [hvi] at h1
      omega

theorem shuffleAux_perm {α : Type} [DecidableEq α] (rand : Nat → Nat) :
    ∀ (n : Nat) (arr : List α), (shuffleAux rand n arr).Perm arr
  | 0, arr => List.Perm.refl arr
  | n + 1, arr =>
    (shuffleAux_perm rand n _).trans (listSwap_perm arr (n + 1) (rand (n + 1) % (n + 2)))

theorem shuffle_perm {α : Type} [DecidableEq α] (rand : Nat → Nat) (source : List α) :
    (shuffle rand source).Perm source :=
  shuffleAux_perm rand (source.length - 1) source

/-- Seat name resolution of `START_GAME`:
`action.payload.names[index]?.trim() || Player (index+1)` — a missing name
or a name that trims to the empty string falls back to the default. -/
def playerName (names : List String) (index : Nat) : String :=
  match names[index]? with
  | some s => if s.trim = "" then "Player " ++ toString (index + 1) else s.trim
  | Option.none => "Player " ++ toString (index + 1)

/-- The `shuffledRoles.map((role, index) => ...)` player construction of
`START_GAME`, with the running index made explicit. -/
def buildPlayers (names : List String) : Nat → List Role → List Player
  | _, [] => []
  | index, role :: rest =>
    { id := index + 1, name := playerName names index, role := role,
      isAlive := true, isSheriff := false, lastNightRoleResult := Option.none }
      :: buildPlayers names (index + 1) rest

/-- The seeded log line of `START_GAME`. -/
def startLogMsg : String := "新的一局开始，正在分配身份。"

/-- The seeded replay entry of `START_GAME`. -/
def startReplayEvent (ts : Nat) : ReplayEvent :=
  { id := "start-" ++ toString ts, phase := "RoleAssignment",
    category := ReplayCategory.system, day := 0, actorId := Option.none,
    content := startLogMsg, timestamp := ts }

/-- The player list built by `START_GAME`: the shuffled role pool zipped
with indices and names (`shuffledRoles.map((role, index) => ...)`). -/
def startPlayers (rand : Nat → Nat) (names : List String) : List Player :=
  buildPlayers names 0 (shuffle rand ROLE_POOL)

/-- The `START_GAME` case of `gameReducer`: shuffle the role pool, build the
ten players, and reset the listed fields of the state (spreading the rest of
the previous state unchanged). -/
def startGame (rand : Nat → Nat) (ts : Nat) (names : List String) (state : GameState) : GameState :=
  { state with
    players := startPlayers rand names
    day := 0
    phase := GamePhase.RoleAssignment
    gameLog := [startLogMsg]
    winner := Winner.none
    werewolfChoice := Option.none
    seerChoice := Option.none
    witchState :=
      { saveUsed := false, poisonUsed := false,
        poisonChoice := Option.none, savedTargetId := Option.none }
    votes := []
    hunterPending := Option.none
    replay := [startReplayEvent ts]
    highlights := [] }

theorem buildPlayers_map_role (names : List String) :
    ∀ (i : Nat) (rs : List Role), (buildPlayers names i rs).map Player.role = rs
  | _, [] => rfl
  | i, r :: rest => by
    simp only [buildPlayers, List.map_cons]
    exact congrArg (r :: ·) (buildPlayers_map_role names (i + 1) rest)

theorem buildPlayers_map_id (names : List String) :
    ∀ (i : Nat) (rs : List Role),
      (buildPlayers names i rs).map Player.id = List.range' (i + 1) rs.length
  | _, [] => rfl
  | i, r :: rest => by
    simp only [buildPlayers, List.map_cons, List.length_cons, List.range'_succ]
    exact congrArg ((i + 1) :: ·) (buildPlayers_map_id names (i + 1) rest)

theorem buildPlayers_name_get (names : List String) :
    ∀ (i : Nat) (rs : List Role) (k : Nat),
      ((buildPlayers names i rs).map Player.name)[k]?
        = if k < rs.length then some (playerName names (i + k)) else Option.none
  | i, [], k => by simp [buildPlayers]
  | i, r :: rest, k => by
    cases k with
    | zero => simp [buildPlayers]
    | succ k =>
      have ih := buildPlayers_name_get names (i + 1) rest k
      have harith : i + 1 + k = i + (k + 1) := by omega
      simp only [buildPlayers, List.map_cons, List.getElem?_cons_succ, List.length_cons]
      rw [ih, harith]
      by_cases hk : k < rest.length
      · rw [if_pos hk, if_pos (by omega)]
      · rw [if_neg hk, if_neg (by omega)]

theorem buildPlayers_flags (names : List String) :
    ∀ (i : Nat) (rs : List Role) (p : Player), p ∈ buildPlayers names i rs →
      p.isAlive = true ∧ p.isSheriff = false ∧ p.lastNightRoleResult = Option.none
  | i, [], p, h => by simp [buildPlayers] at h
  | i, r :: rest, p, h => by
    rcases List.mem_cons.mp h with h1 | h2
    · subst h1; exact ⟨rfl, rfl, rfl⟩
    · exact buildPlayers_flags names (i + 1) rest p h2

/-- C5: for every randomness source, timestamp, names list and prior state,
`StartGame` produces exactly 10 players with unique sequential ids 1..10,
whose role multiset equals the fixed 10-slot pool (3 Werewolf, 4 Villager,
1 Seer, 1 Witch, 1 Hunter), each alive with clean flags, and each named by
the trimmed provided name or the `Player N` fallback for blank/missing
names. -/
theorem startGame_players_spec (rand : Nat → Nat) (ts : Nat) (names : List String)
    (s : GameState) :
    let ps := startPlayers rand names
    (startGame rand ts names s).players = ps ∧
    ps.length = 10 ∧
    ps.map Player.id = [1, 2, 3, 4, 5, 6, 7, 8, 9, 10] ∧
    (ps.map Player.role).Perm ROLE_POOL ∧
    (ps.map Player.role).count Role.Werewolf = 3 ∧
    (ps.map Player.role).count Role.Villager = 4 ∧
    (ps.map Player.role).count Role.Seer = 1 ∧
    (ps.map Player.role).count Role.Witch = 1 ∧
    (ps.map Player.role).count Role.Hunter = 1 ∧
    (∀ p ∈ ps, p.isAlive = true ∧ p.isSheriff = false ∧ p.lastNightRoleResult = Option.none) ∧
    (∀ k, (ps.map Player.name)[k]? = if k < 10 then some (playerName names k) else Option.none) ∧
    (∀ k nm, names[k]? = some nm →
      playerName names k
        = if nm.trim = "" then "Player " ++ toString (k + 1) else nm.trim) ∧
    (∀ k, names[k]? = Option.none → playerName names k = "Player " ++ toString (k + 1)) := by
  intro ps
  have hps : ps = buildPlayers names 0 (shuffle rand ROLE_POOL) := rfl
  have hperm : (shuffle rand ROLE_POOL).Perm ROLE_POOL := shuffle_perm rand ROLE_POOL
  have hlen : (shuffle rand ROLE_POOL).length = 10 := by
    rw [hperm.length_eq]; decide
  have hrole : ps.map Player.role = shuffle rand ROLE_POOL := by
    rw [hps]; exact buildPlayers_map_role names 0 _
  have hrperm : (ps.map Player.role).Perm ROLE_POOL := hrole ▸ hperm
  have hplen : ps.length = 10 := by
    have h := congrArg List.length hrole
    rw [List.length_map] at h
    rw [h, hlen]
  refine ⟨by simp [startGame], hplen, ?_, hrperm, ?_, ?_, ?_, ?_, ?_, ?_, ?_, ?_, ?_⟩
  · rw [hps, buildPlayers_map_id names 0 _, hlen]
    decide
  · rw [hrperm.count_eq]; decide
  · rw [hrperm.count_eq]; decide
  · rw [hrperm.count_eq]; decide
  · rw [hrperm.count_eq]; decide
  · rw [hrperm.count_eq]; decide
  · intro p hp
    rw [hps] at hp
    exact buildPlayers_flags names 0 _ p hp
  · intro k
    rw [hps, buildPlayers_name_get names 0 _ k, hlen]
    simp
  · intro k nm hk
    unfold playerName
    rw [hk]
  · intro k hk
    unfold playerName
    rw [hk]

/-- A minimal concrete game state used as a base for the concrete scenarios
below; individual scenarios override the relevant fields. -/
def baseState : GameState :=
  { players := [], day := 0, phase := GamePhase.Night, winner := Winner.none,
    werewolfChoice := Option.none, seerChoice := Option.none,
    witchState := { saveUsed := false, poisonUsed := false,
                    poisonChoice := Option.none, savedTargetId := Option.none },
    votes := [], voteSummary := Option.none, postVoteRound := 0,
    hunterPending := Option.none, gameLog := [], replay := [], highlights := [] }

/-- A non-initial vote summary left over from a previous game. -/
def staleVoteSummary : VoteSummary :=
  { votes := [], voteCounts := [], exiledPlayerId := Option.none, isTie := true }

/-- A state carrying non-initial post-vote data into `StartGame`. -/
def c4State : GameState :=
  { baseState with voteSummary := some staleVoteSummary, postVoteRound := 5 }

/-- C4 counterexample: `StartGame` spreads the previous state and never
resets `voteSummary` or `postVoteRound`, so a state entering `StartGame`
with `postVoteRound = 5` and a stale vote summary keeps both — they are
not cleared to their initial values as the claim states. -/
theorem startGame_keeps_stale_postVote :
    c4State.postVoteRound = 5 ∧ c4State.voteSummary = some staleVoteSummary ∧
    (startGame (fun k => k) 0 [] c4State).postVoteRound = 5 ∧
    (startGame (fun k => k) 0 [] c4State).voteSummary = some staleVoteSummary ∧
    ¬((startGame (fun k => k) 0 [] c4State).postVoteRound = 0 ∧
      (startGame (fun k => k) 0 [] c4State).voteSummary = Option.none) :=
  ⟨rfl, rfl, rfl, rfl, fun h => absurd h.1 (by decide)⟩

/-- C4 (amended): `StartGame` resets day, phase, winner, the werewolf/seer
choices, the witch sub-state (both use-once flags false), the votes list and
the hunter-pending field, and replaces the log, replay and highlights with
the single seeded new-game entry — but `voteSummary` and `postVoteRound`
are carried over unchanged from the previous state. -/
theorem startGame_resets (rand : Nat → Nat) (ts : Nat) (names : List String) (s : GameState) :
    (startGame rand ts names s).day = 0 ∧
    (startGame rand ts names s).phase = GamePhase.RoleAssignment ∧
    (startGame rand ts names s).winner = Winner.none ∧
    (startGame rand ts names s).werewolfChoice = Option.none ∧
    (startGame rand ts names s).seerChoice = Option.none ∧
    (startGame rand ts names s).witchState =
      { saveUsed := false, poisonUsed := false,
        poisonChoice := Option.none, savedTargetId := Option.none } ∧
    (startGame rand ts names s).votes = [] ∧
    (startGame rand ts names s).hunterPending = Option.none ∧
    (startGame rand ts names s).gameLog = [startLogMsg] ∧
    (startGame rand ts names s).replay = [startReplayEvent ts] ∧
    (startGame rand ts names s).highlights = [] ∧
    (startGame rand ts names s).voteSummary = s.voteSummary ∧
    (startGame rand ts names s).postVoteRound = s.postVoteRound := by
  refine ⟨?_, ?_, ?_, ?_, ?_, ?_, ?_, ?_, ?_, ?_, ?_, ?_, ?_⟩ <;> simp [startGame]

/-- Closed witness for `startGame_players_spec`: the name-policy
implications discharged at a concrete names list. -/
theorem startGame_players_spec_witness :
    (startGame (fun k => k) 0 ["w1"] baseState).players = startPlayers (fun k => k) ["w1"] ∧
    playerName ["w1"] 0 = (if "w1".trim = "" then "Player " ++ toString 1 else "w1".trim) ∧
    playerName ["w1"] 5 = "Player " ++ toString 6 := by
  obtain ⟨h1, _h2, _h3, _h4, _h5, _h6, _h7, _h8, _h9, _h10, _h11, hsome, hnone⟩ :=
    startGame_players_spec (fun k => k) 0 ["w1"] baseState
  exact ⟨h1, hsome 0 "w1" rfl, hnone 5 rfl⟩

/-- Resolve an optional id to the first matching player
(`players.find(p => p.id === choice)` on a possibly-null choice). -/
def findById (players : List Player) (choice : Option Nat) : Option Player :=
  match choice with
  | some c => players.find? (fun p => p.id == c)
  | Option.none => Option.none

/-- `registerDeath` of `RESOLVE_NIGHT`: append a cause to the victim's cause
list, creating the entry (in insertion order) when absent.  The single
association list models the `deathIds` set and `deathCauses` map together
(they always hold the same keys, in the same insertion order). -/
def registerDeath (deaths : List (Nat × List String)) (id : Nat) (cause : String) :
    List (Nat × List String) :=
  match deaths with
  | [] => [(id, [cause])]
  | (k, causes) :: rest =>
    if k = id then (k, causes ++ [cause]) :: rest
    else (k, causes) :: registerDeath rest id cause

/-- `removeDeath` of `RESOLVE_NIGHT`: drop the victim from the pending-death
set and cause map entirely. -/
def removeDeath (deaths : List (Nat × List String)) (id : Nat) : List (Nat × List String) :=
  deaths.filter (fun e => !(e.1 == id))

/-- Step 1 of `RESOLVE_NIGHT`: register the werewolf kill when the recorded
target resolves to a currently-alive player. -/
def wolfRegistered (state : GameState) : List (Nat × List String) :=
  match findById state.players state.werewolfChoice with
  | some t => if t.isAlive then registerDeath [] t.id "狼人击杀" else []
  | Option.none => []

/-- Step 2 of `RESOLVE_NIGHT`: when the witch's recorded save target equals
the werewolf target's id, cancel that pending death entirely. -/
def afterSaveCancel (state : GameState) : List (Nat × List String) :=
  match state.witchState.savedTargetId, findById state.players state.werewolfChoice with
  | some saved, some t =>
    if t.id = saved then removeDeath (wolfRegistered state) t.id else wolfRegistered state
  | _, _ => wolfRegistered state

/-- Steps 1–3 of `RESOLVE_NIGHT`: the final pending-death association list
after the werewolf kill, the save cancellation and the witch poison. -/
def nightDeaths (state : GameState) : List (Nat × List String) :=
  match findById state.players state.witchState.poisonChoice with
  | some t =>
    if t.isAlive then registerDeath (afterSaveCancel state) t.id "女巫毒杀"
    else afterSaveCancel state
  | Option.none => afterSaveCancel state

/-- The seer reveal line of `RESOLVE_NIGHT`. -/
def seerResultMsg (t : Player) : String :=
  "预言家查验 #" ++ toString t.id ++ " " ++ t.name ++ "：" ++
    (if t.role = Role.Werewolf then "是狼人" else "是好人") ++ "。"

/-- Set `lastNightRoleResult` on the first player with the given id (the
in-place mutation of the found object in the JS array). -/
def annotateFirst (players : List Player) (tid : Nat) (msg : String) : List Player :=
  match players with
  | [] => []
  | p :: rest =>
    if p.id = tid then { p with lastNightRoleResult := some msg } :: rest
    else p :: annotateFirst rest tid msg

/-- Step 4 of `RESOLVE_NIGHT`: the player list after the seer reveal is
attached to the inspected target (identity when no seer target resolves). -/
def seerAnnotatedPlayers (state : GameState) : List Player :=
  match findById state.players state.seerChoice with
  | some t => annotateFirst state.players t.id (seerResultMsg t)
  | Option.none => state.players

/-- Step 4 of `RESOLVE_NIGHT`, log side: the seer decision entry (empty when
no seer target resolves). -/
def seerEntries (ts nightIndex : Nat) (state : GameState) : List LogEntryPayload :=
  match findById state.players state.seerChoice with
  | some t =>
    [{ message := seerResultMsg t,
       replay := some
         { id := "seer-" ++ toString nightIndex ++ "-" ++ toString ts,
           phase := "SeerAction", category := ReplayCategory.decision, day := nightIndex,
           actorId := (state.players.find? (fun p => p.role == Role.Seer)).map (fun p => p.id),
           content := seerResultMsg t, timestamp := ts },
       highlight := Option.none }]
  | Option.none => []

/-- Mark the first player with the given id dead (`target.isAlive = false`
on the object found by id). -/
def markDead (players : List Player) (id : Nat) : List Player :=
  match players with
  | [] => []
  | p :: rest =>
    if p.id = id then { p with isAlive := false } :: rest else p :: markDead rest id

/-- Step 5 of `RESOLVE_NIGHT`: apply every still-pending death in insertion
order; a dying Hunter records a night-context pending shot resuming at Day. -/
def applyDeaths : List Nat → List Player → Option HunterPendingInfo →
    List Player × Option HunterPendingInfo
  | [], players, hp => (players, hp)
  | id :: rest, players, hp =>
    match players.find? (fun p => p.id == id) with
    | some t =>
      if t.isAlive then
        applyDeaths rest (markDead players id)
          (if t.role = Role.Hunter then
            some { playerId := t.id, context := HunterCtx.night, nextPhase := GamePhase.Day }
          else hp)
      else applyDeaths rest players hp
    | Option.none => applyDeaths rest players hp

/-- The combined outcome of step 5 of `RESOLVE_NIGHT`: the mutated player
list and the (possibly pre-existing) pending hunter shot. -/
def nightKill (state : GameState) : List Player × Option HunterPendingInfo :=
  applyDeaths ((nightDeaths state).map Prod.fst) (seerAnnotatedPlayers state)
    state.hunterPending

/-- Victim display name in the death summary
(`target?.name ?? 未知id`), looked up in the post-mutation player list. -/
def deathDetailName (players : List Player) (id : Nat) : String :=
  match players.find? (fun p => p.id == id) with
  | some t => t.name
  | Option.none => "未知" ++ toString id

/-- The combined night death summary line. -/
def nightSummaryMsg (nightIndex : Nat) (deaths : List (Nat × List String))
    (players : List Player) : String :=
  "第 " ++ toString nightIndex ++ " 夜结算：" ++
    String.intercalate "；"
      (deaths.map (fun d =>
        "#" ++ toString d.1 ++ " " ++ deathDetailName players d.1 ++ "（" ++
          String.intercalate "、" d.2 ++ "）")) ++ "。"

/-- The peaceful-night line. -/
def peacefulMsg (nightIndex : Nat) : String :=
  "第 " ++ toString nightIndex ++ " 夜平安无事。"

/-- The night-outcome entry: a highlighted death summary, or the peaceful
line when nobody died; one action-category replay entry either way. -/
def nightSummaryEntry (ts nightIndex : Nat) (deaths : List (Nat × List String))
    (players : List Player) : LogEntryPayload :=
  if deaths.isEmpty then
    { message := peacefulMsg nightIndex,
      replay := some
        { id := "night-" ++ toString nightIndex ++ "-" ++ toString ts, phase := "Night",
          category := ReplayCategory.action, day := nightIndex, actorId := Option.none,
          content := peacefulMsg nightIndex, timestamp := ts + 1 },
      highlight := Option.none }
  else
    { message := nightSummaryMsg nightIndex deaths players,
      replay := some
        { id := "night-" ++ toString nightIndex ++ "-" ++ toString ts, phase := "Night",
          category := ReplayCategory.action, day := nightIndex, actorId := Option.none,
          content := nightSummaryMsg nightIndex deaths players, timestamp := ts + 1 },
      highlight := some (nightSummaryMsg nightIndex deaths players) }

/-- The game-over announcement line. -/
def gameOverMsg (w : Winner) : String :=
  if w = Winner.Werewolves then "游戏结束！狼人阵营获胜。" else "游戏结束！好人阵营获胜。"

/-- The night hunter-down line. -/
def hunterNightMsg : String := "猎人被击倒，等待是否开枪。"

/-- The dawn announcement line. -/
def dawnMsg (d : Nat) : String := "第 " ++ toString d ++ " 天清晨，所有人醒来。"

/-- The witch sub-state carried out of `RESOLVE_NIGHT`: per-night choices
cleared, use-once flags preserved. -/
def nextWitchState (w : WitchState) : WitchState :=
  { w with poisonChoice := Option.none, savedTargetId := Option.none }

/-- The `RESOLVE_NIGHT` case of `gameReducer`. -/
def resolveNight (ts : Nat) (state : GameState) : GameState :=
  let nightIndex := state.day + 1
  let deaths := nightDeaths state
  let killed := nightKill state
  let baseEntries := seerEntries ts nightIndex state ++
    [nightSummaryEntry ts nightIndex deaths killed.1]
  let winner := checkWinCondition killed.1
  if winner ≠ Winner.none then
    let entries := baseEntries ++
      [{ message := gameOverMsg winner,
         replay := some
           { id := "gameover-" ++ toString ts, phase := "GameOver",
             category := ReplayCategory.summary, day := nightIndex, actorId := Option.none,
             content := gameOverMsg winner, timestamp := ts + 2 },
         highlight := some (gameOverMsg winner) }]
    let applied := applyLogEntries state entries
    { state with
      players := killed.1, phase := GamePhase.GameOver,
      gameLog := applied.gameLog, replay := applied.replay, highlights := applied.highlights,
      winner := winner, werewolfChoice := Option.none, seerChoice := Option.none,
      witchState := nextWitchState state.witchState, hunterPending := Option.none }
  else
    match killed.2 with
    | some hp =>
      let entries := baseEntries ++
        [{ message := hunterNightMsg,
           replay := some
             { id := "hunter-" ++ toString nightIndex ++ "-" ++ toString ts,
               phase := "HunterAction", category := ReplayCategory.system, day := nightIndex,
               actorId := Option.none, content := hunterNightMsg, timestamp := ts + 2 },
           highlight := Option.none }]
      let applied := applyLogEntries state entries
      { state with
        players := killed.1, phase := GamePhase.HunterAction,
        gameLog := applied.gameLog, replay := applied.replay, highlights := applied.highlights,
        werewolfChoice := Option.none, seerChoice := Option.none,
        witchState := nextWitchState state.witchState, hunterPending := some hp }
    | Option.none =>
      let entries := baseEntries ++
        [{ message := dawnMsg (state.day + 1),
           replay := some
             { id := "day-" ++ toString nightIndex ++ "-" ++ toString ts, phase := "Day",
               category := ReplayCategory.phase, day := nightIndex, actorId := Option.none,
               content := dawnMsg (state.day + 1), timestamp := ts + 2 },
           highlight := Option.none }]
      let applied := applyLogEntries state entries
      { state with
        players := killed.1, phase := GamePhase.Day,
        gameLog := applied.gameLog, replay := applied.replay, highlights := applied.highlights,
        werewolfChoice := Option.none, seerChoice := Option.none,
        witchState := nextWitchState state.witchState, hunterPending := Option.none }

/-- The `WITCH_ACTION {action: save}` case of `gameReducer`: a second save
is silently ignored; otherwise the save is consumed and the save target
recorded as the werewolf choice currently stored in the state. -/
def witchActionSave (state : GameState) : GameState :=
  if state.witchState.saveUsed then state
  else
    { state with
      witchState :=
        { state.witchState with saveUsed := true, savedTargetId := state.werewolfChoice } }

/-- The `WITCH_ACTION {action: poison}` case of `gameReducer`: a second
poison is silently ignored; otherwise the poison is consumed and the chosen
target recorded. -/
def witchActionPoison (targetId : Nat) (state : GameState) : GameState :=
  if state.witchState.poisonUsed then state
  else
    { state with
      witchState :=
        { state.witchState with poisonUsed := true, poisonChoice := some targetId } }

/-- C10: when the save is still available, a save request records the save
target as the werewolf kill choice currently stored in the state (the witch
cannot designate an arbitrary target), sets the use-once flag — also when
the current werewolf choice is null — changes nothing else, and a repeated
save request is a no-op; a save issued with no werewolf target records a
null save target, which cancels nothing in night resolution (the
save-cancellation step leaves the registered death set untouched). -/
theorem witchSave_records_current_choice (s : GameState)
    (h : s.witchState.saveUsed = false) :
    (witchActionSave s).witchState.saveUsed = true ∧
    (witchActionSave s).witchState.savedTargetId = s.werewolfChoice ∧
    (witchActionSave s).witchState.poisonUsed = s.witchState.poisonUsed ∧
    (witchActionSave s).witchState.poisonChoice = s.witchState.poisonChoice ∧
    (witchActionSave s).players = s.players ∧
    (witchActionSave s).phase = s.phase ∧
    (witchActionSave s).werewolfChoice = s.werewolfChoice ∧
    witchActionSave (witchActionSave s) = witchActionSave s ∧
    (s.werewolfChoice = Option.none →
      (witchActionSave s).witchState.savedTargetId = Option.none ∧
      afterSaveCancel (witchActionSave s) = wolfRegistered (witchActionSave s)) := by
  have hs : witchActionSave s =
      { s with
        witchState :=
          { s.witchState with saveUsed := true, savedTargetId := s.werewolfChoice } } := by
    unfold witchActionSave
    rw [h]
    simp
  refine ⟨by rw [hs], by rw [hs], by rw [hs], by rw [hs], by rw [hs], by rw [hs], by rw [hs],
    ?_, ?_⟩
  · rw [hs]
    unfold witchActionSave
    simp
  · intro hw
    constructor
    · rw [hs, hw]
    · unfold afterSaveCancel
      rw [hs, hw]

/-- Concrete state for the `witchSave_records_current_choice` witness. -/
def c10State : GameState := { baseState with werewolfChoice := some 2 }

/-- Closed witness for `witchSave_records_current_choice` at a concrete
state with an available save and werewolf target 2. -/
theorem witchSave_records_current_choice_witness :
    c10State.witchState.saveUsed = false ∧
    (witchActionSave c10State).witchState.saveUsed = true ∧
    (witchActionSave c10State).witchState.savedTargetId = some 2 := by
  obtain ⟨h1, h2, _⟩ := witchSave_records_current_choice c10State rfl
  exact ⟨rfl, h1, h2⟩

/-- Three-player concrete state: one alive werewolf and two alive
villagers, fresh night with no recorded choices. -/
def c3State : GameState :=
  { baseState with
    players :=
      [{ id := 1, name := "A", role := Role.Werewolf, isAlive := true,
         isSheriff := false, lastNightRoleResult := Option.none },
       { id := 2, name := "B", role := Role.Villager, isAlive := true,
         isSheriff := false, lastNightRoleResult := Option.none },
       { id := 3, name := "C", role := Role.Villager, isAlive := true,
         isSheriff := false, lastNightRoleResult := Option.none }] }

/-- C3 counterexample: on a fresh three-player state with no pending deaths,
`ResolveNight` transitions the phase to Day with no winner and no pending
hunter, yet the day counter stays at 0 — it is not incremented to 1 as the
claim states. -/
theorem resolveNight_day_not_incremented :
    (resolveNight 0 c3State).phase = GamePhase.Day ∧
    (resolveNight 0 c3State).winner = Winner.none ∧
    (resolveNight 0 c3State).hunterPending = Option.none ∧
    c3State.day = 0 ∧
    (resolveNight 0 c3State).day = 0 ∧
    ¬ (resolveNight 0 c3State).day = c3State.day + 1 := by
  refine ⟨by decide, by decide, by decide, rfl, by decide, by decide⟩

/-- C3 (amended): `ResolveNight` leaves the day counter unchanged in every
branch — in particular on every night→day transition the resulting day
counter equals the input day counter (the dawn message displays `day + 1`
without updating the counter; the counter is only incremented during
`ResolveVoting`). -/
theorem resolveNight_day_unchanged (ts : Nat) (s : GameState) :
    (resolveNight ts s).day = s.day := by
  unfold resolveNight
  dsimp only
  split
  · rfl
  · split <;> rfl


theorem resolveNight_players_eq (ts : Nat) (s : GameState) :
    (resolveNight ts s).players = (nightKill s).1 := by
  unfold resolveNight
  dsimp only
  split
  · rfl
  · split <;> rfl

theorem find?_id_eq {players : List Player} {c : Nat} {w : Player}
    (h : players.find? (fun p => p.id == c) = some w) : w.id = c := by
  have := List.find?_some h
  simpa using this

theorem removeDeath_keys {ds : List (Nat × List String)} {id x : Nat}
    (h : x ∈ (removeDeath ds id).map Prod.fst) : x ≠ id := by
  unfold removeDeath at h
  rcases List.mem_map.mp h with ⟨e, he, hx⟩
  have := List.of_mem_filter he
  simp only [Bool.not_eq_true', beq_eq_false_iff_ne] at this
  rw [← hx]
  exact this

theorem annotateFirst_filter_alive (tid : Nat) (msg : String) (t : Nat) :
    ∀ ps : List Player,
      (((annotateFirst ps tid msg).filter (fun p => p.id == t)).map Player.isAlive)
        = ((ps.filter (fun p => p.id == t)).map Player.isAlive)
  | [] => rfl
  | p :: rest => by
    have ih := annotateFirst_filter_alive tid msg t rest
    unfold annotateFirst
    by_cases hid : p.id = tid
    · rw [if_pos hid]
      cases hpt : (p.id == t) <;> simp [List.filter_cons, hpt, ih]
    · rw [if_neg hid]
      cases hpt : (p.id == t) <;> simp [List.filter_cons, hpt, ih]

theorem seerAnnotated_filter_alive (s : GameState) (t : Nat) :
    (((seerAnnotatedPlayers s).filter (fun p => p.id == t)).map Player.isAlive)
      = ((s.players.filter (fun p => p.id == t)).map Player.isAlive) := by
  unfold seerAnnotatedPlayers
  cases findById s.players s.seerChoice with
  | none => rfl
  | some w => exact annotateFirst_filter_alive w.id (seerResultMsg w) t s.players

theorem markDead_filter_ne {u t : Nat} (hne : u ≠ t) :
    ∀ ps : List Player,
      ((markDead ps u).filter (fun p => p.id == t)) = ps.filter (fun p => p.id == t)
  | [] => rfl
  | p :: rest => by
    have ih := markDead_filter_ne hne rest
    unfold markDead
    by_cases hid : p.id = u
    · rw [if_pos hid]
      have hpt : (p.id == t) = false := by
        rw [hid]
        simpa using hne
      simp [List.filter_cons, hpt, ih]
    · rw [if_neg hid]
      cases hpt : (p.id == t) <;> simp [List.filter_cons, hpt, ih]

theorem applyDeaths_filter_ne {t : Nat} :
    ∀ (ids : List Nat) (ps : List Player) (hp : Option HunterPendingInfo),
      t ∉ ids →
      (((applyDeaths ids ps hp).1).filter (fun p => p.id == t))
        = ps.filter (fun p => p.id == t)
  | [], ps, hp, _ => rfl
  | id :: rest, ps, hp, hmem => by
    have hne : id ≠ t := fun hc => hmem (by rw [hc]; exact List.mem_cons_self _ _)
    have hrest : t ∉ rest := fun hc => hmem (List.mem_cons_of_mem _ hc)
    unfold applyDeaths
    cases hfind : ps.find? (fun p => p.id == id) with
    | none => exact applyDeaths_filter_ne rest ps hp hrest
    | some w =>
      dsimp only
      by_cases halive : w.isAlive
      · rw [if_pos halive]
        rw [applyDeaths_filter_ne rest (markDead ps id) _ hrest]
        exact markDead_filter_ne hne ps
      · rw [if_neg halive]
        exact applyDeaths_filter_ne rest ps hp hrest

theorem afterSaveCancel_cancelled (s : GameState) (t : Nat)
    (hset : s.witchState.savedTargetId = some t)
    (hwc : s.werewolfChoice = some t) :
    afterSaveCancel s = [] := by
  unfold afterSaveCancel wolfRegistered findById
  rw [hset, hwc]
  dsimp only
  cases hfw : s.players.find? (fun p => p.id == t) with
  | none => rfl
  | some w =>
    have hwid : w.id = t := find?_id_eq hfw
    dsimp only
    rw [if_pos hwid]
    by_cases halive : w.isAlive
    · rw [if_pos halive]
      unfold registerDeath removeDeath
      simp
    · rw [if_neg halive]
      rfl

theorem applyLogEntries_mem_gameLog (state : GameState) (entries : List LogEntryPayload)
    (e : LogEntryPayload) (he : e ∈ entries) (hne : ¬ e.message = "") :
    e.message ∈ (applyLogEntries state entries).gameLog := by
  unfold applyLogEntries
  simp only [List.mem_append, List.mem_filterMap]
  exact Or.inr ⟨e, he, by rw [if_neg hne]⟩

theorem peacefulMsg_ne_empty (n : Nat) : ¬ peacefulMsg n = "" := by
  intro hcontra
  have hlen := congrArg String.length hcontra
  unfold peacefulMsg at hlen
  rw [String.length_append, String.length_append] at hlen
  have h1 : ("第 " : String).length = 2 := rfl
  have h2 : (" 夜平安无事。" : String).length = 7 := rfl
  have h3 : ("" : String).length = 0 := rfl
  rw [h1, h2, h3] at hlen
  omega


/-- C6 (amended): when the recorded witch save target equals the recorded
werewolf kill target and the witch's poison does not also target that
player, the werewolf kill is removed from the pending-death set entirely
(the saved id never appears among the pending death keys), the alive flags
of the players with that id are unchanged by `ResolveNight`, and when no
poison was recorded at all the pending-death set is empty and the night
summary is the peaceful-night line. -/
theorem resolveNight_save_cancels_kill (ts : Nat) (s : GameState) (t : Nat)
    (hset : s.witchState.savedTargetId = some t)
    (hwc : s.werewolfChoice = some t)
    (hpn : ¬ s.witchState.poisonChoice = some t) :
    t ∉ (nightDeaths s).map Prod.fst ∧
    (((resolveNight ts s).players.filter (fun p => p.id == t)).map Player.isAlive)
      = ((s.players.filter (fun p => p.id == t)).map Player.isAlive) ∧
    (s.witchState.poisonChoice = Option.none →
      nightDeaths s = [] ∧ peacefulMsg (s.day + 1) ∈ (resolveNight ts s).gameLog) := by
  have hac : afterSaveCancel s = [] := afterSaveCancel_cancelled s t hset hwc
  have hkeys : t ∉ (nightDeaths s).map Prod.fst := by
    unfold nightDeaths findById
    cases hpc : s.witchState.poisonChoice with
    | none =>
      dsimp only
      rw [hac]
      simp
    | some u =>
      have hu : u ≠ t := fun hc => hpn (by rw [hpc, hc])
      dsimp only
      cases hfu : s.players.find? (fun p => p.id == u) with
      | none =>
        dsimp only
        rw [hac]
        simp
      | some w =>
        have hwid : w.id = u := find?_id_eq hfu
        dsimp only
        by_cases halive : w.isAlive
        · rw [if_pos halive, hac]
          unfold registerDeath
          simp [hwid]
          exact fun hc => hu hc.symm
        · rw [if_neg halive, hac]
          simp
  refine ⟨hkeys, ?_, ?_⟩
  · rw [resolveNight_players_eq ts s]
    unfold nightKill
    rw [applyDeaths_filter_ne _ _ _ hkeys]
    exact seerAnnotated_filter_alive s t
  · intro hpc
    have hnd : nightDeaths s = [] := by
      unfold nightDeaths findById
      rw [hpc]
      dsimp only
      rw [hac]
    refine ⟨hnd, ?_⟩
    have hmsg : (nightSummaryEntry ts (s.day + 1) (nightDeaths s) (nightKill s).1).message
        = peacefulMsg (s.day + 1) := by
      rw [hnd]
      rfl
    unfold resolveNight
    dsimp only
    split
    · rw [← hmsg]
      apply applyLogEntries_mem_gameLog
      · simp
      · rw [hmsg]
        exact peacefulMsg_ne_empty (s.day + 1)
    · split <;>
      · rw [← hmsg]
        apply applyLogEntries_mem_gameLog
        · simp
        · rw [hmsg]
          exact peacefulMsg_ne_empty (s.day + 1)

/-- Concrete state where the witch saved and poisoned the same player the
werewolves targeted. -/
def c6State : GameState :=
  { baseState with
    players :=
      [{ id := 1, name := "A", role := Role.Werewolf, isAlive := true,
         isSheriff := false, lastNightRoleResult := Option.none },
       { id := 2, name := "B", role := Role.Villager, isAlive := true,
         isSheriff := false, lastNightRoleResult := Option.none },
       { id := 3, name := "C", role := Role.Villager, isAlive := true,
         isSheriff := false, lastNightRoleResult := Option.none }],
    werewolfChoice := some 3,
    witchState :=
      { saveUsed := true, poisonUsed := true,
        poisonChoice := some 3, savedTargetId := some 3 } }

/-- C6 counterexample: with the save target equal to the werewolf kill
target, the saved player can still die in the same `ResolveNight` — here
the witch also poisoned the same player, so the alive flag flips from true
to false even though the werewolf kill was cancelled. -/
theorem resolveNight_save_defeated_by_poison :
    c6State.witchState.savedTargetId = c6State.werewolfChoice ∧
    c6State.witchState.savedTargetId = some 3 ∧
    ((c6State.players.filter (fun p => p.id == 3)).map Player.isAlive) = [true] ∧
    (((resolveNight 0 c6State).players.filter (fun p => p.id == 3)).map Player.isAlive)
      = [false] ∧
    ¬ ((((resolveNight 0 c6State).players.filter (fun p => p.id == 3)).map Player.isAlive)
        = ((c6State.players.filter (fun p => p.id == 3)).map Player.isAlive)) := by
  refine ⟨rfl, rfl, by decide, by decide, by decide⟩

/-- Concrete state where the save matches the kill and no poison exists. -/
def c6SaveState : GameState :=
  { c3State with
    werewolfChoice := some 2,
    witchState :=
      { saveUsed := true, poisonUsed := false,
        poisonChoice := Option.none, savedTargetId := some 2 } }

/-- Closed witness for `resolveNight_save_cancels_kill`: at a concrete
state the cancelled kill leaves the target alive and yields the
peaceful-night summary. -/
theorem resolveNight_save_cancels_kill_witness :
    c6SaveState.witchState.savedTargetId = some 2 ∧
    c6SaveState.werewolfChoice = some 2 ∧
    ¬ c6SaveState.witchState.poisonChoice = some 2 ∧
    (2 ∉ (nightDeaths c6SaveState).map Prod.fst ∧
     (((resolveNight 0 c6SaveState).players.filter (fun p => p.id == 2)).map Player.isAlive)
       = ((c6SaveState.players.filter (fun p => p.id == 2)).map Player.isAlive) ∧
     (c6SaveState.witchState.poisonChoice = Option.none →
       nightDeaths c6SaveState = [] ∧
       peacefulMsg (c6SaveState.day + 1) ∈ (resolveNight 0 c6SaveState).gameLog)) :=
  ⟨rfl, rfl, by decide, resolveNight_save_cancels_kill 0 c6SaveState 2 rfl rfl (by decide)⟩

/-- One audit line of `RESOLVE_VOTING`: `voter → target`, with a bare
`#id` for an unknown voter and the abstain label for a null/missing
target. -/
def voteLine (players : List Player) (v : Vote) : String :=
  (match players.find? (fun p => p.id == v.voterId) with
    | some p => "#" ++ toString p.id ++ " " ++ p.name
    | Option.none => "#" ++ toString v.voterId) ++
  " → " ++
  (match findById players v.targetId with
    | some p => "#" ++ toString p.id ++ " " ++ p.name
    | Option.none => "弃权")

/-- The single combined vote-record line of `RESOLVE_VOTING`. -/
def voteAuditMsg (state : GameState) : String :=
  "投票记录：" ++ String.intercalate "；" (state.votes.map (voteLine state.players))

/-- The decision-category replay event recording the whole votes list. -/
def voteAuditEvent (ts : Nat) (state : GameState) : ReplayEvent :=
  { id := "votes-" ++ toString state.day ++ "-" ++ toString ts, phase := "Voting",
    category := ReplayCategory.decision, day := state.day, actorId := Option.none,
    content := voteAuditMsg state, timestamp := ts }

/-- The audit entry of `RESOLVE_VOTING`: pushed once, only when at least one
vote was cast — a single log line and a single replay entry for the whole
votes list. -/
def voteAuditEntries (ts : Nat) (state : GameState) : List LogEntryPayload :=
  if state.votes.isEmpty then []
  else
    [{ message := voteAuditMsg state,
       replay := some (voteAuditEvent ts state),
       highlight := Option.none }]

/-- Insert one vote into the tally.  The accumulator is kept in ascending
key order, matching the enumeration order `Object.entries` gives a record
with integer-like keys. -/
def tallyInsert (acc : List (Nat × Nat)) (t : Nat) : List (Nat × Nat) :=
  match acc with
  | [] => [(t, 1)]
  | (k, c) :: rest =>
    if t = k then (k, c + 1) :: rest
    else if t < k then (t, 1) :: (k, c) :: rest
    else (k, c) :: tallyInsert rest t

/-- The vote tally of `RESOLVE_VOTING`: per-target counts over non-null
targets, enumerated in ascending target-id order. -/
def voteTally (votes : List Vote) : List (Nat × Nat) :=
  votes.foldl
    (fun acc v =>
      match v.targetId with
      | some t => tallyInsert acc t
      | Option.none => acc)
    []

/-- The comparator `(a, b) => b[1] - a[1]`: entry `a` may precede entry `b`
when its count is at least `b`'s. -/
def tallyOrder (a b : Nat × Nat) : Prop := b.2 ≤ a.2

instance : DecidableRel tallyOrder := fun a b => Nat.decLe b.2 a.2

instance : IsTotal (Nat × Nat) tallyOrder := ⟨fun a b => Nat.le_total b.2 a.2⟩

instance : IsTrans (Nat × Nat) tallyOrder := ⟨fun _ _ _ hab hbc => Nat.le_trans hbc hab⟩

/-- The sort of `RESOLVE_VOTING`: stable sort of the tally entries by
descending vote count (`Object.entries(tally).sort((a, b) => b[1] - a[1])`). -/
def sortedTally (tally : List (Nat × Nat)) : List (Nat × Nat) :=
  List.insertionSort tallyOrder tally

/-- The elimination decision of `RESOLVE_VOTING`: the top entry of the
sorted tally, unless the list is empty or the second entry ties the top
count. -/
def voteOutcome (tally : List (Nat × Nat)) : Option (Nat × Nat) :=
  match sortedTally tally with
  | [] => Option.none
  | top :: rest =>
    let isTie :=
      match rest with
      | [] => false
      | second :: _ => second.2 == top.2
    if isTie then Option.none else some top

/-- The player object mutated by the elimination
(`players.find(p => p.id === eliminatedId && p.isAlive)`). -/
def voteElim (state : GameState) : Option Player :=
  match voteOutcome (voteTally state.votes) with
  | some top => state.players.find? (fun p => p.id == top.1 && p.isAlive)
  | Option.none => Option.none

/-- Mark the first alive player with the given id dead. -/
def markDeadAlive (players : List Player) (id : Nat) : List Player :=
  match players with
  | [] => []
  | p :: rest =>
    if p.id = id ∧ p.isAlive then { p with isAlive := false } :: rest
    else p :: markDeadAlive rest id

/-- The player list after `RESOLVE_VOTING`'s elimination (unchanged when
nobody is eliminated or the target is dead/missing). -/
def votePlayers (state : GameState) : List Player :=
  match voteOutcome (voteTally state.votes), voteElim state with
  | some top, some _ => markDeadAlive state.players top.1
  | _, _ => state.players

/-- The pending hunter shot after `RESOLVE_VOTING`: set when the eliminated
player is a Hunter, with day context and Night as the resume phase. -/
def voteHunterPending (state : GameState) : Option HunterPendingInfo :=
  match voteElim state with
  | some p =>
    if p.role = Role.Hunter then
      some { playerId := p.id, context := HunterCtx.day, nextPhase := GamePhase.Night }
    else state.hunterPending
  | Option.none => state.hunterPending

/-- The elimination line of `RESOLVE_VOTING`, carrying the vote count. -/
def elimMsg (id : Nat) (nm : String) (c : Nat) : String :=
  "玩家 #" ++ toString id ++ " " ++ nm ++ " 以 " ++ toString c ++ " 票出局。"

/-- The tie line of `RESOLVE_VOTING`. -/
def tieMsg : String := "投票平票，无人出局。"

/-- The day hunter-exiled line. -/
def hunterDayMsg : String := "猎人被放逐，等待是否开枪。"

/-- The upcoming-night line. -/
def nightBeginMsg (d : Nat) : String := "第 " ++ toString d ++ " 夜即将开始。"

/-- The outcome entry of `RESOLVE_VOTING`: a highlighted elimination line
when an alive target was eliminated, the tie line when no single top
target exists, and nothing when the decided target is dead or missing. -/
def voteResultEntries (ts : Nat) (state : GameState) : List LogEntryPayload :=
  match voteOutcome (voteTally state.votes) with
  | some top =>
    match voteElim state with
    | some p =>
      [{ message := elimMsg p.id p.name top.2,
         replay := some
           { id := "vote-result-" ++ toString state.day ++ "-" ++ toString ts,
             phase := "Voting", category := ReplayCategory.action, day := state.day,
             actorId := some p.id, content := elimMsg p.id p.name top.2,
             timestamp := ts + 1 },
         highlight := some (elimMsg p.id p.name top.2) }]
    | Option.none => []
  | Option.none =>
    [{ message := tieMsg,
       replay := some
         { id := "vote-result-" ++ toString state.day ++ "-" ++ toString ts,
           phase := "Voting", category := ReplayCategory.system, day := state.day,
           actorId := Option.none, content := tieMsg, timestamp := ts + 1 },
       highlight := Option.none }]

/-- The `RESOLVE_VOTING` case of `gameReducer`. -/
def resolveVoting (ts : Nat) (state : GameState) : GameState :=
  let players := votePlayers state
  let baseEntries := voteAuditEntries ts state ++ voteResultEntries ts state
  let winner := checkWinCondition players
  if winner ≠ Winner.none then
    let entries := baseEntries ++
      [{ message := gameOverMsg winner,
         replay := some
           { id := "gameover-" ++ toString (ts + 1), phase := "GameOver",
             category := ReplayCategory.summary, day := state.day, actorId := Option.none,
             content := gameOverMsg winner, timestamp := ts + 2 },
         highlight := some (gameOverMsg winner) }]
    let applied := applyLogEntries state entries
    { state with
      players := players, phase := GamePhase.GameOver,
      gameLog := applied.gameLog, replay := applied.replay, highlights := applied.highlights,
      winner := winner, votes := [], hunterPending := Option.none }
  else
    match voteHunterPending state with
    | some hp =>
      let entries := baseEntries ++
        [{ message := hunterDayMsg,
           replay := some
             { id := "hunter-" ++ toString state.day ++ "-" ++ toString ts,
               phase := "HunterAction", category := ReplayCategory.system, day := state.day,
               actorId := Option.none, content := hunterDayMsg, timestamp := ts + 2 },
           highlight := Option.none }]
      let applied := applyLogEntries state entries
      { state with
        players := players, phase := GamePhase.HunterAction,
        gameLog := applied.gameLog, replay := applied.replay, highlights := applied.highlights,
        votes := [], day := state.day + 1, hunterPending := some hp }
    | Option.none =>
      let entries := baseEntries ++
        [{ message := nightBeginMsg (state.day + 1),
           replay := some
             { id := "night-start-" ++ toString (state.day + 1) ++ "-" ++ toString ts,
               phase := "Night", category := ReplayCategory.phase, day := state.day + 1,
               actorId := Option.none, content := nightBeginMsg (state.day + 1),
               timestamp := ts + 2 },
           highlight := Option.none }]
      let applied := applyLogEntries state entries
      { state with
        players := players, phase := GamePhase.Night, day := state.day + 1,
        gameLog := applied.gameLog, replay := applied.replay, highlights := applied.highlights,
        votes := [], hunterPending := Option.none }

theorem markDead_preserves_dead {k : Nat} :
    ∀ (ps : List Player) (id : Nat),
      (∃ p ∈ ps, p.id = k ∧ p.role = Role.Hunter ∧ p.isAlive = false) →
      ∃ p ∈ markDead ps id, p.id = k ∧ p.role = Role.Hunter ∧ p.isAlive = false
  | [], id, h => h
  | q :: rest, id, h => by
    rcases h with ⟨p, hmem, hprops⟩
    rcases List.mem_cons.mp hmem with hpq | hrest
    · subst hpq
      unfold markDead
      by_cases hid : p.id = id
      · rw [if_pos hid]
        exact ⟨{ p with isAlive := false }, List.mem_cons_self _ _,
          hprops.1, hprops.2.1, rfl⟩
      · rw [if_neg hid]
        exact ⟨p, List.mem_cons_self _ _, hprops⟩
    · unfold markDead
      by_cases hid : q.id = id
      · rw [if_pos hid]
        exact ⟨p, List.mem_cons_of_mem _ hrest, hprops⟩
      · rw [if_neg hid]
        obtain ⟨p2, hmem2, hprops2⟩ :=
          markDead_preserves_dead rest id ⟨p, hrest, hprops⟩
        exact ⟨p2, List.mem_cons_of_mem _ hmem2, hprops2⟩

theorem applyDeaths_preserves_dead {k : Nat} :
    ∀ (ids : List Nat) (ps : List Player) (hp0 : Option HunterPendingInfo),
      (∃ p ∈ ps, p.id = k ∧ p.role = Role.Hunter ∧ p.isAlive = false) →
      ∃ p ∈ (applyDeaths ids ps hp0).1, p.id = k ∧ p.role = Role.Hunter ∧ p.isAlive = false
  | [], ps, hp0, h => h
  | id :: rest, ps, hp0, h => by
    unfold applyDeaths
    cases hfind : ps.find? (fun p => p.id == id) with
    | none => exact applyDeaths_preserves_dead rest ps hp0 h
    | some t =>
      dsimp only
      by_cases halive : t.isAlive
      · rw [if_pos halive]
        exact applyDeaths_preserves_dead rest (markDead ps id) _
          (markDead_preserves_dead ps id h)
      · rw [if_neg halive]
        exact applyDeaths_preserves_dead rest ps hp0 h

theorem markDead_creates_dead :
    ∀ (ps : List Player) (id : Nat) (t : Player),
      ps.find? (fun p => p.id == id) = some t →
      ∃ p ∈ markDead ps id, p.id = t.id ∧ p.role = t.role ∧ p.isAlive = false
  | [], id, t, h => by simp at h
  | q :: rest, id, t, h => by
    unfold markDead
    by_cases hid : q.id = id
    · rw [if_pos hid]
      have hqt : q = t := by
        rw [List.find?_cons_of_pos _ (by simpa using hid)] at h
        exact Option.some.inj h
      subst hqt
      exact ⟨{ q with isAlive := false }, List.mem_cons_self _ _, rfl, rfl, rfl⟩
    · rw [if_neg hid]
      have h2 : rest.find? (fun p => p.id == id) = some t := by
        rwa [List.find?_cons_of_neg _ (by simpa using hid)] at h
      obtain ⟨p, hmem, hprops⟩ := markDead_creates_dead rest id t h2
      exact ⟨p, List.mem_cons_of_mem _ hmem, hprops⟩

theorem applyDeaths_pending :
    ∀ (ids : List Nat) (ps : List Player) (hp0 : Option HunterPendingInfo),
      (applyDeaths ids ps hp0).2 = hp0 ∨
      ∃ pid, (applyDeaths ids ps hp0).2
          = some { playerId := pid, context := HunterCtx.night, nextPhase := GamePhase.Day } ∧
        ∃ p ∈ (applyDeaths ids ps hp0).1,
          p.id = pid ∧ p.role = Role.Hunter ∧ p.isAlive = false
  | [], ps, hp0 => Or.inl rfl
  | id :: rest, ps, hp0 => by
    unfold applyDeaths
    cases hfind : ps.find? (fun p => p.id == id) with
    | none => exact applyDeaths_pending rest ps hp0
    | some t =>
      dsimp only
      by_cases halive : t.isAlive
      · rw [if_pos halive]
        by_cases hrole : t.role = Role.Hunter
        · rw [if_pos hrole]
          rcases applyDeaths_pending rest (markDead ps id)
              (some { playerId := t.id, context := HunterCtx.night,
                      nextPhase := GamePhase.Day }) with heq | hex
          · refine Or.inr ⟨t.id, heq, ?_⟩
            have hdead : ∃ p ∈ markDead ps id,
                p.id = t.id ∧ p.role = Role.Hunter ∧ p.isAlive = false := by
              obtain ⟨p, hmem, h1, h2, h3⟩ := markDead_creates_dead ps id t hfind
              exact ⟨p, hmem, h1, h2 ▸ hrole ▸ rfl, h3⟩
            exact applyDeaths_preserves_dead rest (markDead ps id) _ hdead
          · exact Or.inr hex
        · rw [if_neg hrole]
          exact applyDeaths_pending rest (markDead ps id) hp0
      · rw [if_neg halive]
        exact applyDeaths_pending rest ps hp0

/-- C7: a pending hunter record produced by the kill step of `ResolveNight`
on a state with no prior pending shot carries that dead Hunter's id with
night context and Day resume phase; with no winner the phase becomes
HunterAction carrying that record and the day counter is unchanged, while
with a winner the phase becomes GameOver and the pending record is
discarded.  Likewise for `ResolveVoting`: a pending record from a Hunter
elimination carries day context and Night resume phase; with no winner the
phase becomes HunterAction and the day counter is incremented, with a
winner GameOver clears it. -/
theorem hunter_pending_transitions (s : GameState) (ts : Nat) (hp : HunterPendingInfo) :
    ((nightKill s).2 = some hp →
      (checkWinCondition (nightKill s).1 = Winner.none →
        (resolveNight ts s).phase = GamePhase.HunterAction ∧
        (resolveNight ts s).hunterPending = some hp ∧
        (resolveNight ts s).day = s.day) ∧
      (¬ checkWinCondition (nightKill s).1 = Winner.none →
        (resolveNight ts s).phase = GamePhase.GameOver ∧
        (resolveNight ts s).hunterPending = Option.none) ∧
      (s.hunterPending = Option.none →
        hp.context = HunterCtx.night ∧ hp.nextPhase = GamePhase.Day ∧
        ∃ p ∈ (nightKill s).1,
          p.id = hp.playerId ∧ p.role = Role.Hunter ∧ p.isAlive = false)) ∧
    (voteHunterPending s = some hp →
      (checkWinCondition (votePlayers s) = Winner.none →
        (resolveVoting ts s).phase = GamePhase.HunterAction ∧
        (resolveVoting ts s).hunterPending = some hp ∧
        (resolveVoting ts s).day = s.day + 1) ∧
      (¬ checkWinCondition (votePlayers s) = Winner.none →
        (resolveVoting ts s).phase = GamePhase.GameOver ∧
        (resolveVoting ts s).hunterPending = Option.none) ∧
      (s.hunterPending = Option.none →
        hp.context = HunterCtx.day ∧ hp.nextPhase = GamePhase.Night ∧
        ∃ p, voteElim s = some p ∧ p.role = Role.Hunter ∧ hp.playerId = p.id)) := by
  constructor
  · intro hhp
    refine ⟨?_, ?_, ?_⟩
    · intro hwin
      unfold resolveNight
      dsimp only
      rw [hwin, if_neg (by simp : ¬ (Winner.none ≠ Winner.none)), hhp]
      exact ⟨rfl, rfl, rfl⟩
    · intro hwin
      unfold resolveNight
      dsimp only
      rw [if_pos (by simpa using hwin)]
      exact ⟨rfl, rfl⟩
    · intro hpend0
      rcases applyDeaths_pending ((nightDeaths s).map Prod.fst) (seerAnnotatedPlayers s)
          s.hunterPending with heq | ⟨pid, heq, p, hmem, h1, h2, h3⟩
      · rw [show (applyDeaths ((nightDeaths s).map Prod.fst) (seerAnnotatedPlayers s)
            s.hunterPending).2 = (nightKill s).2 from rfl] at heq
        rw [hhp, hpend0] at heq
        exact absurd heq (by simp)
      · rw [show (applyDeaths ((nightDeaths s).map Prod.fst) (seerAnnotatedPlayers s)
            s.hunterPending).2 = (nightKill s).2 from rfl] at heq
        rw [hhp] at heq
        have hinj := Option.some.inj heq
        rw [hinj]
        exact ⟨rfl, rfl, p,
          (show (applyDeaths ((nightDeaths s).map Prod.fst) (seerAnnotatedPlayers s)
            s.hunterPending).1 = (nightKill s).1 from rfl) ▸ hmem, h1, h2, h3⟩
  · intro hhp
    refine ⟨?_, ?_, ?_⟩
    · intro hwin
      unfold resolveVoting
      dsimp only
      rw [hwin, if_neg (by simp : ¬ (Winner.none ≠ Winner.none)), hhp]
      exact ⟨rfl, rfl, rfl⟩
    · intro hwin
      unfold resolveVoting
      dsimp only
      rw [if_pos (by simpa using hwin)]
      exact ⟨rfl, rfl⟩
    · intro hpend0
      unfold voteHunterPending at hhp
      cases helim : voteElim s with
      | none =>
        rw [helim] at hhp
        dsimp only at hhp
        rw [hpend0] at hhp
        exact absurd hhp (by simp)
      | some p =>
        rw [helim] at hhp
        dsimp only at hhp
        by_cases hrole : p.role = Role.Hunter
        · rw [if_pos hrole] at hhp
          have hinj := Option.some.inj hhp
          rw [← hinj]
          exact ⟨rfl, rfl, p, rfl, hrole, rfl⟩
        · rw [if_neg hrole] at hhp
          rw [hpend0] at hhp
          exact absurd hhp (by simp)

/-- Concrete state where the werewolves kill the Hunter at night. -/
def c7NightState : GameState :=
  { baseState with
    players :=
      [{ id := 1, name := "A", role := Role.Werewolf, isAlive := true,
         isSheriff := false, lastNightRoleResult := Option.none },
       { id := 2, name := "H", role := Role.Hunter, isAlive := true,
         isSheriff := false, lastNightRoleResult := Option.none },
       { id := 3, name := "B", role := Role.Villager, isAlive := true,
         isSheriff := false, lastNightRoleResult := Option.none },
       { id := 4, name := "C", role := Role.Villager, isAlive := true,
         isSheriff := false, lastNightRoleResult := Option.none }],
    werewolfChoice := some 2 }

/-- Concrete state where the day vote exiles the Hunter. -/
def c7VoteState : GameState :=
  { baseState with
    phase := GamePhase.Voting,
    players :=
      [{ id := 1, name := "A", role := Role.Werewolf, isAlive := true,
         isSheriff := false, lastNightRoleResult := Option.none },
       { id := 2, name := "B", role := Role.Villager, isAlive := true,
         isSheriff := false, lastNightRoleResult := Option.none },
       { id := 3, name := "C", role := Role.Villager, isAlive := true,
         isSheriff := false, lastNightRoleResult := Option.none },
       { id := 5, name := "H", role := Role.Hunter, isAlive := true,
         isSheriff := false, lastNightRoleResult := Option.none }],
    votes :=
      [{ voterId := 1, targetId := some 5 },
       { voterId := 2, targetId := some 5 },
       { voterId := 3, targetId := some 5 }] }

/-- Closed witness for `hunter_pending_transitions` at concrete night and
vote scenarios. -/
theorem hunter_pending_transitions_witness :
    (nightKill c7NightState).2
      = some { playerId := 2, context := HunterCtx.night, nextPhase := GamePhase.Day } ∧
    checkWinCondition (nightKill c7NightState).1 = Winner.none ∧
    (resolveNight 0 c7NightState).phase = GamePhase.HunterAction ∧
    (resolveNight 0 c7NightState).hunterPending
      = some { playerId := 2, context := HunterCtx.night, nextPhase := GamePhase.Day } ∧
    (resolveNight 0 c7NightState).day = c7NightState.day ∧
    voteHunterPending c7VoteState
      = some { playerId := 5, context := HunterCtx.day, nextPhase := GamePhase.Night } ∧
    checkWinCondition (votePlayers c7VoteState) = Winner.none ∧
    (resolveVoting 0 c7VoteState).phase = GamePhase.HunterAction ∧
    (resolveVoting 0 c7VoteState).hunterPending
      = some { playerId := 5, context := HunterCtx.day, nextPhase := GamePhase.Night } ∧
    (resolveVoting 0 c7VoteState).day = c7VoteState.day + 1 := by
  have hn := (hunter_pending_transitions c7NightState 0
    { playerId := 2, context := HunterCtx.night, nextPhase := GamePhase.Day }).1 (by decide)
  have hv := (hunter_pending_transitions c7VoteState 0
    { playerId := 5, context := HunterCtx.day, nextPhase := GamePhase.Night }).2 (by decide)
  have hn1 := hn.1 (by decide)
  have hv1 := hv.1 (by decide)
  exact ⟨by decide, by decide, hn1.1, hn1.2.1, hn1.2.2,
    by decide, by decide, hv1.1, hv1.2.1, hv1.2.2⟩

theorem tallyInsert_keys_mem :
    ∀ (acc : List (Nat × Nat)) (t x : Nat),
      x ∈ (tallyInsert acc t).map Prod.fst → x = t ∨ x ∈ acc.map Prod.fst
  | [], t, x, h => Or.inl (by simpa [tallyInsert] using h)
  | (k, c) :: rest, t, x, h => by
    unfold tallyInsert at h
    by_cases htk : t = k
    · rw [if_pos htk] at h
      simp only [List.map_cons] at h ⊢
      rcases List.mem_cons.mp h with h1 | h2
      · exact Or.inr (List.mem_cons.mpr (Or.inl h1))
      · exact Or.inr (List.mem_cons.mpr (Or.inr h2))
    · rw [if_neg htk] at h
      by_cases hlt : t < k
      · rw [if_pos hlt] at h
        simp only [List.map_cons] at h ⊢
        rcases List.mem_cons.mp h with h1 | h2
        · exact Or.inl h1
        · exact Or.inr h2
      · rw [if_neg hlt] at h
        simp only [List.map_cons] at h ⊢
        rcases List.mem_cons.mp h with h1 | h2
        · exact Or.inr (List.mem_cons.mpr (Or.inl h1))
        · rcases tallyInsert_keys_mem rest t x h2 with h3 | h4
          · exact Or.inl h3
          · exact Or.inr (List.mem_cons.mpr (Or.inr h4))

theorem tallyInsert_pairwise :
    ∀ (acc : List (Nat × Nat)) (t : Nat),
      List.Pairwise (fun a b : Nat × Nat => a.1 < b.1) acc →
      List.Pairwise (fun a b : Nat × Nat => a.1 < b.1) (tallyInsert acc t)
  | [], t, _ => by simp [tallyInsert]
  | (k, c) :: rest, t, hpw => by
    rcases List.pairwise_cons.mp hpw with ⟨hhead, hrest⟩
    unfold tallyInsert
    by_cases htk : t = k
    · rw [if_pos htk]
      exact List.pairwise_cons.mpr ⟨hhead, hrest⟩
    · rw [if_neg htk]
      by_cases hlt : t < k
      · rw [if_pos hlt]
        refine List.pairwise_cons.mpr ⟨?_, List.pairwise_cons.mpr ⟨hhead, hrest⟩⟩
        intro e he
        rcases List.mem_cons.mp he with h1 | h2
        · rw [h1]; exact hlt
        · exact Nat.lt_trans hlt (hhead e h2)
      · rw [if_neg hlt]
        refine List.pairwise_cons.mpr ⟨?_, tallyInsert_pairwise rest t hrest⟩
        intro e he
        rcases tallyInsert_keys_mem rest t e.1 (List.mem_map.mpr ⟨e, he, rfl⟩) with h1 | h2
        · rw [h1]; omega
        · rcases List.mem_map.mp h2 with ⟨e2, he2, hfst⟩
          have := hhead e2 he2
          omega

theorem voteTally_pairwise_aux :
    ∀ (votes : List Vote) (acc : List (Nat × Nat)),
      List.Pairwise (fun a b : Nat × Nat => a.1 < b.1) acc →
      List.Pairwise (fun a b : Nat × Nat => a.1 < b.1)
        (votes.foldl
          (fun acc v =>
            match v.targetId with
            | some t => tallyInsert acc t
            | Option.none => acc)
          acc)
  | [], acc, hpw => hpw
  | v :: rest, acc, hpw => by
    simp only [List.foldl_cons]
    cases v.targetId with
    | none => exact voteTally_pairwise_aux rest acc hpw
    | some t =>
      dsimp only
      exact voteTally_pairwise_aux rest (tallyInsert acc t) (tallyInsert_pairwise acc t hpw)

theorem voteTally_pairwise (votes : List Vote) :
    List.Pairwise (fun a b : Nat × Nat => a.1 < b.1) (voteTally votes) :=
  voteTally_pairwise_aux votes [] (List.Pairwise.nil)

theorem pair_eq_of_key :
    ∀ {l : List (Nat × Nat)},
      List.Pairwise (fun a b : Nat × Nat => a.1 < b.1) l →
      ∀ {p q : Nat × Nat}, p ∈ l → q ∈ l → p.1 = q.1 → p = q := by
  intro l hpw
  induction hpw with
  | nil => intro p q hp _ _; simp at hp
  | cons hhead _ ih =>
    intro p q hp hq hkey
    rcases List.mem_cons.mp hp with hp1 | hp2 <;> rcases List.mem_cons.mp hq with hq1 | hq2
    · rw [hp1, hq1]
    · subst hp1
      have := hhead q hq2
      omega
    · subst hq1
      have := hhead p hp2
      omega
    · exact ih hp2 hq2 hkey

theorem nodup_of_pairwise_lt {l : List (Nat × Nat)}
    (h : List.Pairwise (fun a b : Nat × Nat => a.1 < b.1) l) : l.Nodup :=
  h.imp (fun hab => by
    intro heq
    rw [heq] at hab
    omega)

theorem voteOutcome_unique_max (tally : List (Nat × Nat)) (tid c : Nat)
    (hpw : List.Pairwise (fun a b : Nat × Nat => a.1 < b.1) tally)
    (hmem : (tid, c) ∈ tally)
    (hmax : ∀ e ∈ tally, e.1 ≠ tid → e.2 < c) :
    voteOutcome tally = some (tid, c) := by
  have hperm : (sortedTally tally).Perm tally := List.perm_insertionSort tallyOrder tally
  have hsorted : List.Sorted tallyOrder (sortedTally tally) :=
    List.sorted_insertionSort tallyOrder tally
  have hmem' : (tid, c) ∈ sortedTally tally := hperm.mem_iff.mpr hmem
  unfold voteOutcome
  cases hst : sortedTally tally with
  | nil => rw [hst] at hmem'; simp at hmem'
  | cons top rest =>
    rw [hst] at hmem' hsorted hperm
    rcases List.pairwise_cons.mp hsorted with ⟨hhead, hrest⟩
    have htopmem : top ∈ tally := hperm.mem_iff.mp (List.mem_cons_self _ _)
    have hctop : c ≤ top.2 := by
      rcases List.mem_cons.mp hmem' with h1 | h2
      · rw [← h1]
      · exact hhead (tid, c) h2
    have htopkey : top.1 = tid := by
      by_contra hne
      have := hmax top htopmem hne
      omega
    have htopeq : top = (tid, c) := pair_eq_of_key hpw htopmem hmem htopkey
    cases rest with
    | nil =>
      dsimp only
      rw [if_neg (by simp)]
      rw [htopeq]
    | cons second rest2 =>
      have hsecmem : second ∈ tally :=
        hperm.mem_iff.mp (List.mem_cons_of_mem _ (List.mem_cons_self _ _))
      have hseckey : second.1 ≠ tid := by
        intro hk
        have hse : second = (tid, c) := pair_eq_of_key hpw hsecmem hmem hk
        have hnd : (top :: second :: rest2).Nodup :=
          hperm.nodup_iff.mpr (nodup_of_pairwise_lt hpw)
        rcases List.pairwise_cons.mp hnd with ⟨hndh, _⟩
        exact hndh second (List.mem_cons_self _ _) (by rw [htopeq, hse])
      have hseclt : second.2 < c := hmax second hsecmem hseckey
      dsimp only
      rw [if_neg (by
        simp only [beq_iff_eq]
        rw [htopeq]
        simp only []
        omega)]
      rw [htopeq]

theorem voteOutcome_tie (tally : List (Nat × Nat)) (t1 t2 c : Nat)
    (hmem1 : (t1, c) ∈ tally) (hmem2 : (t2, c) ∈ tally) (hne : t1 ≠ t2)
    (hmax : ∀ e ∈ tally, e.2 ≤ c) :
    voteOutcome tally = Option.none := by
  have hperm : (sortedTally tally).Perm tally := List.perm_insertionSort tallyOrder tally
  have hsorted : List.Sorted tallyOrder (sortedTally tally) :=
    List.sorted_insertionSort tallyOrder tally
  have hmem1' : (t1, c) ∈ sortedTally tally := hperm.mem_iff.mpr hmem1
  have hmem2' : (t2, c) ∈ sortedTally tally := hperm.mem_iff.mpr hmem2
  have hpairne : ((t1, c) : Nat × Nat) ≠ (t2, c) := by
    intro hcontra
    exact hne (congrArg Prod.fst hcontra)
  unfold voteOutcome
  cases hst : sortedTally tally with
  | nil => rw [hst] at hmem1'
  | cons top rest =>
    rw [hst] at hmem1' hmem2' hsorted hperm
    rcases List.pairwise_cons.mp hsorted with ⟨hhead, hrest⟩
    have htopmem : top ∈ tally := hperm.mem_iff.mp (List.mem_cons_self _ _)
    have htop2 : top.2 = c := by
      have hle : top.2 ≤ c := hmax top htopmem
      have hge : c ≤ top.2 := by
        rcases List.mem_cons.mp hmem1' with h1 | h2
        · rw [← h1]
        · exact hhead (t1, c) h2
      omega
    have hrestmem : ((t1, c) : Nat × Nat) ∈ rest ∨ ((t2, c) : Nat × Nat) ∈ rest := by
      rcases List.mem_cons.mp hmem1' with h1 | h2
      · rcases List.mem_cons.mp hmem2' with h3 | h4
        · exact absurd (h1.trans h3.symm) hpairne
        · exact Or.inr h4
      · exact Or.inl h2
    cases rest with
    | nil =>
      rcases hrestmem with h | h <;> simp at h
    | cons second rest2 =>
      have hsec2 : second.2 = c := by
        have hsecmem : second ∈ tally :=
          hperm.mem_iff.mp (List.mem_cons_of_mem _ (List.mem_cons_self _ _))
        have hle : second.2 ≤ c := hmax second hsecmem
        have hge : c ≤ second.2 := by
          rcases List.pairwise_cons.mp hrest with ⟨hhead2, _⟩
          rcases hrestmem with h | h <;>
            rcases List.mem_cons.mp h with h1 | h2
          · rw [← h1]
          · exact hhead2 (t1, c) h2
          · rw [← h1]
          · exact hhead2 (t2, c) h2
        omega
      dsimp only
      rw [if_pos (by simp only [beq_iff_eq]; omega)]

theorem eq_of_nodup_key {α β : Type} [DecidableEq β] {f : α → β} :
    ∀ {l : List α}, (l.map f).Nodup →
      ∀ {a b : α}, a ∈ l → b ∈ l → f a = f b → a = b
  | [], _, a, b, ha, _, _ => by simp at ha
  | x :: rest, hnd, a, b, ha, hb, hk => by
    simp only [List.map_cons, List.nodup_cons] at hnd
    rcases List.mem_cons.mp ha with ha1 | ha2 <;> rcases List.mem_cons.mp hb with hb1 | hb2
    · rw [ha1, hb1]
    · subst ha1
      exact absurd (List.mem_map.mpr ⟨b, hb2, hk.symm⟩) hnd.1
    · subst hb1
      exact absurd (List.mem_map.mpr ⟨a, ha2, hk⟩) hnd.1
    · exact eq_of_nodup_key hnd.2 ha2 hb2 hk

theorem markDeadAlive_no_match :
    ∀ (ps : List Player) (tid : Nat), (∀ p ∈ ps, ¬ p.id = tid) →
      markDeadAlive ps tid = ps
  | [], _, _ => rfl
  | q :: rest, tid, h => by
    unfold markDeadAlive
    rw [if_neg (fun hc => h q (List.mem_cons_self _ _) hc.1)]
    rw [markDeadAlive_no_match rest tid (fun p hp => h p (List.mem_cons_of_mem _ hp))]

theorem markDeadAlive_pairs :
    ∀ (ps : List Player) (tid : Nat) (pl : Player),
      (ps.map Player.id).Nodup → pl ∈ ps → pl.id = tid → pl.isAlive = true →
      (markDeadAlive ps tid).map (fun p => (p.id, p.isAlive))
        = ps.map (fun p => (p.id, if p.id = tid then false else p.isAlive))
  | [], tid, pl, _, hmem, _, _ => by simp at hmem
  | q :: rest, tid, pl, hnd, hmem, hpid, halive => by
    simp only [List.map_cons, List.nodup_cons] at hnd
    by_cases hq : q.id = tid
    · have hql : q = pl := by
        rcases List.mem_cons.mp hmem with h1 | h2
        · exact h1.symm
        · exact absurd (List.mem_map.mpr ⟨pl, h2, hpid.trans hq.symm⟩) hnd.1
      have hqalive : q.isAlive = true := by rw [hql]; exact halive
      unfold markDeadAlive
      rw [if_pos ⟨hq, hqalive⟩]
      have hrestid : ∀ p ∈ rest, ¬ p.id = tid := by
        intro p hp hc
        exact hnd.1 (List.mem_map.mpr ⟨p, hp, (hq.trans hc.symm).symm⟩)
      simp only [List.map_cons]
      rw [if_pos hq]
      refine congrArg _ ?_
      exact List.map_congr_left (fun p hp => by rw [if_neg (hrestid p hp)])
    · have hmem2 : pl ∈ rest := by
        rcases List.mem_cons.mp hmem with h1 | h2
        · exact absurd (h1 ▸ hpid) hq
        · exact h2
      unfold markDeadAlive
      rw [if_neg (fun hc => hq hc.1)]
      simp only [List.map_cons]
      rw [if_neg hq]
      exact congrArg _ (markDeadAlive_pairs rest tid pl hnd.2 hmem2 hpid halive)

theorem resolveVoting_players_eq (ts : Nat) (s : GameState) :
    (resolveVoting ts s).players = votePlayers s := by
  unfold resolveVoting
  dsimp only
  split
  · rfl
  · split <;> rfl

theorem elimMsg_ne_empty (id : Nat) (nm : String) (c : Nat) : ¬ elimMsg id nm c = "" := by
  intro hcontra
  have hlen := congrArg String.length hcontra
  unfold elimMsg at hlen
  rw [String.length_append, String.length_append, String.length_append,
    String.length_append, String.length_append, String.length_append] at hlen
  have h1 : ("玩家 #" : String).length = 4 := rfl
  have h3 : ("" : String).length = 0 := rfl
  rw [h1, h3] at hlen
  omega

theorem resolveVoting_mem_gameLog (ts : Nat) (s : GameState) (e : LogEntryPayload)
    (he : e ∈ voteAuditEntries ts s ++ voteResultEntries ts s)
    (hne : ¬ e.message = "") : e.message ∈ (resolveVoting ts s).gameLog := by
  unfold resolveVoting
  dsimp only
  split
  · exact applyLogEntries_mem_gameLog _ _ e (List.mem_append_left _ he) hne
  · split <;> exact applyLogEntries_mem_gameLog _ _ e (List.mem_append_left _ he) hne

/-- C8: with a non-empty tally whose top count is shared by two or more
targets, `ResolveVoting` eliminates nobody (the player list is returned
unchanged) and appends the tie message; with a single target strictly
holding the top count and an alive player carrying that id (ids unique),
exactly that player's alive flag becomes false and the elimination line
carrying its vote count is appended. -/
theorem resolveVoting_tally_outcome (ts : Nat) (s : GameState) :
    (∀ t1 t2 c, (t1, c) ∈ voteTally s.votes → (t2, c) ∈ voteTally s.votes → t1 ≠ t2 →
      (∀ e ∈ voteTally s.votes, e.2 ≤ c) →
      (resolveVoting ts s).players = s.players ∧ tieMsg ∈ (resolveVoting ts s).gameLog) ∧
    (∀ tid c pl, (tid, c) ∈ voteTally s.votes →
      (∀ e ∈ voteTally s.votes, e.1 ≠ tid → e.2 < c) →
      pl ∈ s.players → pl.id = tid → pl.isAlive = true →
      (s.players.map Player.id).Nodup →
      ((resolveVoting ts s).players.map (fun p => (p.id, p.isAlive))
        = s.players.map (fun p => (p.id, if p.id = tid then false else p.isAlive))) ∧
      elimMsg tid pl.name c ∈ (resolveVoting ts s).gameLog) := by
  constructor
  · intro t1 t2 c hm1 hm2 hne hmax
    have hout : voteOutcome (voteTally s.votes) = Option.none :=
      voteOutcome_tie _ t1 t2 c hm1 hm2 hne hmax
    have helim : voteElim s = Option.none := by
      unfold voteElim
      rw [hout]
    have hvp : votePlayers s = s.players := by
      unfold votePlayers
      rw [hout, helim]
    have hres : voteResultEntries ts s =
        [{ message := tieMsg,
           replay := some
             { id := "vote-result-" ++ toString s.day ++ "-" ++ toString ts,
               phase := "Voting", category := ReplayCategory.system, day := s.day,
               actorId := Option.none, content := tieMsg, timestamp := ts + 1 },
           highlight := Option.none }] := by
      unfold voteResultEntries
      rw [hout]
    constructor
    · rw [resolveVoting_players_eq, hvp]
    · exact resolveVoting_mem_gameLog ts s _
        (List.mem_append_right _ (by rw [hres]; exact List.mem_cons_self _ _))
        (show ¬ tieMsg = "" from by decide)
  · intro tid c pl hm hmax hpm hpid halive hnodup
    have hpw := voteTally_pairwise s.votes
    have hout : voteOutcome (voteTally s.votes) = some (tid, c) :=
      voteOutcome_unique_max _ tid c hpw hm hmax
    obtain ⟨q, hq⟩ : ∃ q, s.players.find? (fun p => p.id == tid && p.isAlive) = some q := by
      cases hf : s.players.find? (fun p => p.id == tid && p.isAlive) with
      | some q => exact ⟨q, rfl⟩
      | none =>
        have := List.find?_eq_none.mp hf pl hpm
        rw [hpid, halive] at this
        simp at this
    have hqpred := List.find?_some hq
    have hqid : q.id = tid ∧ q.isAlive = true := by
      simpa [Bool.and_eq_true] using hqpred
    have hqmem : q ∈ s.players := List.mem_of_find?_eq_some hq
    have hqpl : q = pl := eq_of_nodup_key hnodup hqmem hpm (hqid.1.trans hpid.symm)
    subst hqpl
    have helim : voteElim s = some q := by
      unfold voteElim
      rw [hout]
      exact hq
    have hvp : votePlayers s = markDeadAlive s.players tid := by
      unfold votePlayers
      rw [hout, helim]
    refine ⟨?_, ?_⟩
    · rw [resolveVoting_players_eq, hvp]
      exact markDeadAlive_pairs s.players tid q hnodup hpm hpid halive
    · have hres : voteResultEntries ts s =
          [{ message := elimMsg q.id q.name c,
             replay := some
               { id := "vote-result-" ++ toString s.day ++ "-" ++ toString ts,
                 phase := "Voting", category := ReplayCategory.action, day := s.day,
                 actorId := some q.id, content := elimMsg q.id q.name c,
                 timestamp := ts + 1 },
             highlight := some (elimMsg q.id q.name c) }] := by
        unfold voteResultEntries
        rw [hout, helim]
      rw [← hpid]
      exact resolveVoting_mem_gameLog ts s _
        (List.mem_append_right _ (by rw [hres]; exact List.mem_cons_self _ _))
        (elimMsg_ne_empty q.id q.name c)

/-- Concrete voting state with a tie at the top (one vote each for
players 2 and 3). -/
def c8TieState : GameState :=
  { baseState with
    phase := GamePhase.Voting,
    players :=
      [{ id := 1, name := "A", role := Role.Werewolf, isAlive := true,
         isSheriff := false, lastNightRoleResult := Option.none },
       { id := 2, name := "B", role := Role.Villager, isAlive := true,
         isSheriff := false, lastNightRoleResult := Option.none },
       { id := 3, name := "C", role := Role.Villager, isAlive := true,
         isSheriff := false, lastNightRoleResult := Option.none },
       { id := 4, name := "D", role := Role.Villager, isAlive := true,
         isSheriff := false, lastNightRoleResult := Option.none }],
    votes :=
      [{ voterId := 1, targetId := some 2 },
       { voterId := 2, targetId := some 3 }] }

/-- Concrete voting state with a strict top target (two votes for
player 3). -/
def c8ElimState : GameState :=
  { baseState with
    phase := GamePhase.Voting,
    players :=
      [{ id := 1, name := "A", role := Role.Werewolf, isAlive := true,
         isSheriff := false, lastNightRoleResult := Option.none },
       { id := 2, name := "B", role := Role.Villager, isAlive := true,
         isSheriff := false, lastNightRoleResult := Option.none },
       { id := 3, name := "C", role := Role.Villager, isAlive := true,
         isSheriff := false, lastNightRoleResult := Option.none },
       { id := 4, name := "D", role := Role.Villager, isAlive := true,
         isSheriff := false, lastNightRoleResult := Option.none }],
    votes :=
      [{ voterId := 1, targetId := some 3 },
       { voterId := 2, targetId := some 3 }] }

/-- Closed witness for `resolveVoting_tally_outcome`: a concrete tie keeps
every player and logs the tie line; a concrete strict majority kills
exactly the top target and logs its vote count. -/
theorem resolveVoting_tally_outcome_witness :
    ((resolveVoting 0 c8TieState).players = c8TieState.players ∧
      tieMsg ∈ (resolveVoting 0 c8TieState).gameLog) ∧
    (((resolveVoting 0 c8ElimState).players.map (fun p => (p.id, p.isAlive))
        = c8ElimState.players.map (fun p => (p.id, if p.id = 3 then false else p.isAlive))) ∧
      elimMsg 3 "C" 2 ∈ (resolveVoting 0 c8ElimState).gameLog) := by
  have ht := (resolveVoting_tally_outcome 0 c8TieState).1 2 3 1
    (by decide) (by decide) (by decide) (by decide)
  have hel := (resolveVoting_tally_outcome 0 c8ElimState).2 3 2
    { id := 3, name := "C", role := Role.Villager, isAlive := true,
      isSheriff := false, lastNightRoleResult := Option.none }
    (by decide) (by decide) (by decide) rfl rfl (by decide)
  exact ⟨ht, hel⟩

theorem applyLogEntries_first (state : GameState) (e : LogEntryPayload)
    (rest : List LogEntryPayload) (hne : ¬ e.message = "") :
    ∃ restL, (applyLogEntries state (e :: rest)).gameLog
      = state.gameLog ++ (e.message :: restL) := by
  unfold applyLogEntries
  rw [List.filterMap_cons]
  rw [if_neg hne]
  exact ⟨_, rfl⟩

theorem applyLogEntries_first_replay (state : GameState) (e : LogEntryPayload)
    (rest : List LogEntryPayload) (ev : ReplayEvent) (hev : e.replay = some ev) :
    ∃ restR, (applyLogEntries state (e :: rest)).replay
      = state.replay ++ (ev :: restR) := by
  refine ⟨rest.filterMap (fun e => e.replay), ?_⟩
  show (applyLogEntries state (e :: rest)).replay
    = state.replay ++ (ev :: rest.filterMap (fun e => e.replay))
  unfold applyLogEntries
  dsimp only
  rw [List.filterMap_cons, hev]

theorem voteAuditMsg_ne_empty (s : GameState) : ¬ voteAuditMsg s = "" := by
  intro hcontra
  have hlen := congrArg String.length hcontra
  unfold voteAuditMsg at hlen
  rw [String.length_append] at hlen
  have h1 : ("投票记录：" : String).length = 5 := rfl
  have h3 : ("" : String).length = 0 := rfl
  rw [h1, h3] at hlen
  omega

/-- C9 counterexample: with two cast votes, `ResolveVoting` appends a
single combined audit log line and a single decision-category replay entry
for the whole votes list — not one per cast vote.  The full appended log is
the audit line, the tie line and the night announcement: three entries, not
the four (two per-vote lines plus tally and phase lines) the claim implies,
and only one decision-category replay entry exists for two votes. -/
theorem resolveVoting_single_audit_entry :
    c8TieState.votes.length = 2 ∧
    (resolveVoting 0 c8TieState).gameLog
      = c8TieState.gameLog ++ [voteAuditMsg c8TieState, tieMsg, nightBeginMsg 1] ∧
    (resolveVoting 0 c8TieState).replay.length = c8TieState.replay.length + 3 ∧
    ((resolveVoting 0 c8TieState).replay.filter
        (fun e => e.category == ReplayCategory.decision)).length = 1 ∧
    ¬ ((resolveVoting 0 c8TieState).replay.filter
        (fun e => e.category == ReplayCategory.decision)).length
      = c8TieState.votes.length := by
  refine ⟨rfl, by decide, by decide, by decide, by decide⟩

/-- C9 (amended): for every state with a non-empty votes list,
`ResolveVoting` appends the audit trail as one combined log line and one
decision-category replay entry covering every cast vote in order (with the
abstain label for null/missing targets), and this single audit entry
precedes the tally outcome and any elimination entry in both the log and
the replay. -/
theorem resolveVoting_audit_first (ts : Nat) (s : GameState) (h : ¬ s.votes = []) :
    (∃ restL, (resolveVoting ts s).gameLog
      = s.gameLog ++ (voteAuditMsg s :: restL)) ∧
    (∃ restR, (resolveVoting ts s).replay
      = s.replay ++ (voteAuditEvent ts s :: restR)) ∧
    voteAuditMsg s = "投票记录：" ++ String.intercalate "；" (s.votes.map (voteLine s.players)) := by
  have hA : voteAuditEntries ts s =
      [{ message := voteAuditMsg s, replay := some (voteAuditEvent ts s),
         highlight := Option.none }] := by
    unfold voteAuditEntries
    rw [if_neg (by simpa [List.isEmpty_iff] using h)]
  refine ⟨?_, ?_, rfl⟩
  · unfold resolveVoting
    dsimp only
    split
    · rw [hA]
      exact applyLogEntries_first s _ _ (voteAuditMsg_ne_empty s)
    · split <;>
      · rw [hA]
        exact applyLogEntries_first s _ _ (voteAuditMsg_ne_empty s)
  · unfold resolveVoting
    dsimp only
    split
    · rw [hA]
      exact applyLogEntries_first_replay s _ _ _ rfl
    · split <;>
      · rw [hA]
        exact applyLogEntries_first_replay s _ _ _ rfl

/-- Closed witness for `resolveVoting_audit_first` at a concrete two-vote
state. -/
theorem resolveVoting_audit_first_witness :
    ¬ c8ElimState.votes = [] ∧
    (∃ restL, (resolveVoting 0 c8ElimState).gameLog
      = c8ElimState.gameLog ++ (voteAuditMsg c8ElimState :: restL)) := by
  exact ⟨by decide, (resolveVoting_audit_first 0 c8ElimState (by decide)).1⟩
